import Mathlib

/-!
Verification development for the Pac-Watch pipeline (`src/main.py`).

The pipeline loads a persistent record store from blob storage, trims it to a
retention window, fetches the latest disclosure feed, normalizes and
deduplicates the entries, persists the merged store, groups the records into
aggregates and renders/dispatches one message per new aggregate.

Strings are modelled as lists of characters (`Str`), matching Python's
code-point semantics for `len`, slicing and `in`.  Monetary amounts are
modelled as integers and calendar dates/datetimes as integer day ordinals;
the numeric and date parsers of pandas are modelled on a restricted grammar
(optional sign, digits, optional fractional part for numbers; digit strings
for dates) — what matters for the verified properties is which inputs parse
at all, and that a parse failure raises.  Exceptions are modelled with
`Except Unit` (an uncaught exception aborts the run) and `Option` (inside the
renderer, whose caller catches every exception).
-/

set_option maxRecDepth 100000

abbrev Str := List Char

/-- Coerce a Lean string literal to the `Str` model. -/
def strL (s : String) : Str := s.data

/-- Characters matched by the regex class `\s` used in `main.py` line 155. -/
def isSpaceChar (c : Char) : Bool :=
  c = ' ' || c = '\t' || c = '\n' || c = '\r' || c = '\x0b' || c = '\x0c'

/-- A string matching `^\s*$` (empty or whitespace-only), which the
normalization step replaces by the missing-value marker (line 155). -/
def isBlank (s : Str) : Bool := s.all isSpaceChar

/-- Blank-to-missing replacement applied to every field (line 155):
whitespace-only strings become the missing value `none`. -/
def cleanField (s : Str) : Option Str := if isBlank s then none else some s

/-- Value of a string of decimal digits. -/
def digitsToNat (s : Str) : Nat :=
  s.foldl (fun n c => 10 * n + (c.toNat - '0'.toNat)) 0

/-- Unsigned part of the modelled numeric grammar: one or more digits,
optionally followed by `.` and digits (the fractional part is truncated,
as the renderer later applies `int(...)` anyway). -/
def parseUnsigned (s : Str) : Option Nat :=
  let intPart := s.takeWhile Char.isDigit
  let rest := s.dropWhile Char.isDigit
  if intPart = [] then none
  else
    match rest with
    | [] => some (digitsToNat intPart)
    | '.' :: frac => if frac.all Char.isDigit then some (digitsToNat intPart) else none
    | _ => none

/-- Model of the `pd.to_numeric` conversion applied to one cell (line 159):
`none` models the exception raised on an unconvertible value. -/
def parseNumeric (s : Str) : Option Int :=
  match s with
  | '-' :: rest => (parseUnsigned rest).map (fun n => -(n : Int))
  | '+' :: rest => (parseUnsigned rest).map (fun n => (n : Int))
  | _ => (parseUnsigned s).map (fun n => (n : Int))

/-- Model of the `pd.to_datetime` conversion applied to one non-missing cell
(line 160): dates are integer day ordinals and the parser accepts digit
strings; `none` models the exception raised on an unparseable value. -/
def parseDate (s : Str) : Option Int :=
  if s ≠ [] ∧ s.all Char.isDigit then some ((digitsToNat s : Int)) else none

/-- A normalized contribution record: the twelve feed-sourced columns of the
dataframe (`initialize_records`, lines 27-31).  String fields hold `none`
when the feed value was blank (replaced by the missing marker, line 155);
`date = none` models the missing-date marker `NaT`. -/
structure Record where
  cmteid : Option Str
  pacshort : Option Str
  suppopp : Option Str
  candname : Option Str
  district : Option Str
  amount : Int
  note : Option Str
  party : Option Str
  payee : Option Str
  date : Option Int
  origin : Option Str
  source : Option Str
deriving DecidableEq

/-- A row of the persistent store: a record plus the ingestion `timestamp`
column added at line 170 (absent, hence `none`, for rows written before a
timestamp existed). -/
structure StoredRecord where
  rcd : Record
  timestamp : Option Str
deriving DecidableEq

/-- One raw feed entry: the `@attributes` bag of the JSON payload.  Per the
feed interface every attribute is present as a (possibly blank) string. -/
structure RawEntry where
  cmteid : Str
  pacshort : Str
  suppopp : Str
  candname : Str
  district : Str
  amount : Str
  note : Str
  party : Str
  payee : Str
  date : Str
  origin : Str
  source : Str
deriving DecidableEq

/-- The `dropna` test on the key columns `pacshort, suppopp, candname, amount`
(lines 154-156): an entry survives iff none of these is blank. -/
def keyPresent (e : RawEntry) : Bool :=
  !(isBlank e.pacshort) && !(isBlank e.suppopp) && !(isBlank e.candname)
    && !(isBlank e.amount)

/-- Type conversion of one surviving entry (lines 158-160): `to_numeric` on
the amount and `to_datetime` on the date; a conversion failure raises
(`Except.error`), a missing date becomes `NaT` (`none`). -/
def convertRow (e : RawEntry) : Except Unit Record :=
  match parseNumeric e.amount with
  | none => Except.error ()
  | some a =>
    let mkRec : Option Int → Record := fun d =>
      { cmteid := cleanField e.cmteid
        pacshort := cleanField e.pacshort
        suppopp := cleanField e.suppopp
        candname := cleanField e.candname
        district := cleanField e.district
        amount := a
        note := cleanField e.note
        party := cleanField e.party
        payee := cleanField e.payee
        date := d
        origin := cleanField e.origin
        source := cleanField e.source }
    match cleanField e.date with
    | none => Except.ok (mkRec none)
    | some ds =>
      match parseDate ds with
      | none => Except.error ()
      | some d => Except.ok (mkRec (some d))

/-- Effectful map over a list in `Except`: the first failure aborts the
whole batch, exactly as an exception raised by a column conversion does. -/
def mapME (f : RawEntry → Except Unit Record) : List RawEntry → Except Unit (List Record)
  | [] => Except.ok []
  | a :: as =>
    match f a with
    | Except.error e => Except.error e
    | Except.ok b =>
      match mapME f as with
      | Except.error e => Except.error e
      | Except.ok bs => Except.ok (b :: bs)

/-- Normalization of the raw feed batch (lines 153-160): blank-to-missing
replacement, `dropna` on the key columns, then type conversions (which raise
on failure). -/
def normalizeEntries (entries : List RawEntry) : Except Unit (List Record) :=
  mapME convertRow (entries.filter keyPresent)

/-- The deduplication step (lines 162-165): the left merge on all common
columns — every feed-sourced field, the ingestion timestamp excluded — keeps
exactly the fresh rows matching no store row. -/
def dedupNew (latest : List Record) (store : List StoredRecord) : List Record :=
  latest.filter (fun r => !(store.any (fun s => s.rcd == r)))

/-- Strict comparison of date cells for sorting, missing dates (`NaT`) last. -/
def dateLtB (a b : Option Int) : Bool :=
  match a, b with
  | some x, some y => decide (x < y)
  | some _, none => true
  | none, _ => false

/-- Sort order of line 171: disclosure date ascending, amount descending. -/
def newLe (a b : Record) : Bool :=
  if a.date = b.date then decide (b.amount ≤ a.amount) else dateLtB a.date b.date

/-- Ordered insertion for the stable sort model. -/
def insertLe (le : Record → Record → Bool) (a : Record) : List Record → List Record
  | [] => [a]
  | b :: bs => if le a b then a :: b :: bs else b :: insertLe le a bs

/-- Stable insertion sort modelling `sort_values` (line 171). -/
def insertionSort (le : Record → Record → Bool) : List Record → List Record
  | [] => []
  | a :: as => insertLe le a (insertionSort le as)

/-- Model of `get_latest_data` (lines 142-173): `fetch = none` models a feed
pull that produced no usable data (`None` or a non-dict), in which case the
function returns `None`; otherwise the batch is normalized (conversion
failures raise), deduplicated against the store, sorted when non-empty, and
stamped with the capture timestamp.  An empty new-record set is returned as
an empty list, not an error. -/
def get_latest_data (fetch : Option (List RawEntry)) (records : List StoredRecord)
    (nowStr : Str) : Except Unit (Option (List StoredRecord)) :=
  match fetch with
  | none => Except.ok none
  | some entries =>
    match normalizeEntries entries with
    | Except.error e => Except.error e
    | Except.ok latest =>
      let newRecs := dedupNew latest records
      let sortedRecs := if 0 < newRecs.length then insertionSort newLe newRecs else newRecs
      Except.ok (some (sortedRecs.map (fun r => ⟨r, some nowStr⟩)))

/-- The pandas comparison `date >= cutoff` on one cell: false for a missing
date (`NaT` compares false against everything). -/
def dateGE (d : Option Int) (cutoff : Int) : Bool :=
  match d with
  | some x => decide (cutoff ≤ x)
  | none => false

/-- Retention trimming (lines 291-295): when the store is non-empty, keep
exactly the rows whose disclosure date is `>=` the cutoff
`now - n_prev_days`.  A pure filter; it cannot fail. -/
def trimRecords (records : List StoredRecord) (cutoff : Int) : List StoredRecord :=
  if 0 < records.length then records.filter (fun r => dateGE r.rcd.date cutoff)
  else records

/-- One left-to-right pass of Python's `str.replace` with explicit fuel;
the fuel is always instantiated with the string length, which suffices for a
non-empty pattern. -/
def replaceF (pat repl : Str) : Nat → Str → Str
  | 0, s => s
  | _+1, [] => []
  | fuel+1, c :: rest =>
    if pat <+: (c :: rest) then repl ++ replaceF pat repl fuel ((c :: rest).drop pat.length)
    else c :: replaceF pat repl fuel rest

/-- Python's `s.replace(pat, repl)` for a non-empty pattern: replace every
non-overlapping occurrence, scanning left to right. -/
def replaceAll (pat repl s : Str) : Str := replaceF pat repl s.length s

/-- One guarded escape step of lines 201-210: `if pat in s: s = s.replace(pat, repl)`. -/
def escapeOne (pat repl s : Str) : Str := if pat <:+: s then replaceAll pat repl s else s

/-- The domain-suffix escaping of the contributor name (lines 200-210),
applied in source order: `.com`, `.org`, `.gov`, `.net`, `.edu`. -/
def escapePac (pac : Str) : Str :=
  escapeOne (strL ".edu") (strL " dot edu")
    (escapeOne (strL ".net") (strL " dot net")
      (escapeOne (strL ".gov") (strL " dot gov")
        (escapeOne (strL ".org") (strL " dot org")
          (escapeOne (strL ".com") (strL " dot com") pac))))

/-- Splitting scan for Python's `str.split(sep)` with a non-empty separator,
with explicit fuel and an accumulator for the current piece. -/
def splitGo (sep : Str) : Nat → Str → Str → List Str
  | _, acc, [] => [acc.reverse]
  | 0, acc, s => [acc.reverse ++ s]
  | fuel+1, acc, c :: rest =>
    if sep <+: (c :: rest) then acc.reverse :: splitGo sep fuel [] ((c :: rest).drop sep.length)
    else splitGo sep fuel (c :: acc) rest

/-- Python's `s.split(sep)` for a non-empty separator (used with `", "` at
lines 215-216); always returns at least one piece. -/
def splitOnSep (sep s : Str) : List Str := splitGo sep s.length [] s

/-- Grouping of a reversed digit string into blocks of three for the
thousands separator. -/
def group3 : Str → Str
  | a :: b :: c :: d :: rest => a :: b :: c :: ',' :: group3 (d :: rest)
  | s => s

/-- Python's `'{:,}'.format(int(x))` (lines 212 and 225): decimal digits
with thousands separators, a leading minus sign for negatives. -/
def commaFormat (n : Int) : Str :=
  (if n < 0 then ['-'] else []) ++ (group3 ((Nat.toDigits 10 n.natAbs).reverse)).reverse

/-- Python's `str.lower`, modelled on the ASCII range. -/
def lowerStr (s : Str) : Str := s.map Char.toLower

/-- Python's `str(n)` for the integer day-window parameter (line 224). -/
def intStr (n : Int) : Str :=
  (if n < 0 then ['-'] else []) ++ Nat.toDigits 10 n.natAbs

/-- The final hard truncation of lines 239-240: `body[:char_limit]` when the
body exceeds the limit. -/
def truncAt (charLimit : Nat) (s : Str) : Str :=
  if charLimit < s.length then s.take charLimit else s

/-- The cumulative second sentence of lines 226-227 and 234-235. -/
def cumulClause (recordAmount timeString suppopp lastname : Str) : Str :=
  strL "\n\nThey have now spent $" ++ recordAmount ++ [' '] ++ suppopp ++ [' ']
    ++ lastname ++ strL " in the past " ++ timeString ++ ['.']

/-- The primary sentence of lines 220-221, with the purpose clause. -/
def primarySentence (pac amountStr purpose suppopp firstname lastname party districtString : Str) : Str :=
  pac ++ strL " spends $" ++ amountStr ++ strL " on " ++ purpose ++ [' '] ++ suppopp
    ++ [' '] ++ firstname ++ [' '] ++ lastname ++ strL " (" ++ party ++ districtString
    ++ strL ")."

/-- The shortened sentence of lines 231-232, without the purpose clause. -/
def shortSentence (pac amountStr suppopp firstname lastname party districtString : Str) : Str :=
  pac ++ strL " spends $" ++ amountStr ++ [' '] ++ suppopp ++ [' '] ++ firstname
    ++ [' '] ++ lastname ++ strL " (" ++ party ++ districtString ++ strL ")."

/-- An aggregate row of `grouped_latest_df` (lines 321-322): the six group
key columns plus the summed amount.  The pandas `groupby` drops rows with a
missing value in a key column, so every key field of an aggregate row is a
proper string. -/
structure AggRow where
  pacshort : Str
  suppopp : Str
  candname : Str
  district : Str
  party : Str
  note : Str
  amount : Int
deriving DecidableEq

/-- Model of `get_tweet_body` (lines 190-242).  `none` models an exception
escaping the function: an `IndexError` from `candidate.split(", ")[1]` (line
215) when the name has no `", "` separator, an `IndexError` from
`district[2]` (line 217) when the district code has fewer than three
characters, or the `NameError` at line 234 (`record_amount` is only assigned
inside the line-223 branch, but line 233 re-appends the cumulative clause
whenever `sum_prev_contribution is not None`, even when it did not exceed
the amount). -/
def renderBody (row : AggRow) (sumPrev : Option Int) (nPrevDays : Int)
    (charLimit : Nat) : Option Str :=
  let pac := escapePac row.pacshort
  let amountStr := commaFormat row.amount
  let purpose := lowerStr row.note
  let suppopp := lowerStr row.suppopp.dropLast
  match (splitOnSep (strL ", ") row.candname).get? 1 with
  | none => none
  | some firstname =>
    let lastname := (splitOnSep (strL ", ") row.candname).headD []
    match row.district.get? 2 with
    | none => none
    | some c2 =>
      let district := if c2 = 'S' then row.district.take 2 else row.district
      let districtString := '-' :: district
      let body0 := primarySentence pac amountStr purpose suppopp firstname lastname
        row.party districtString
      let clauseVars : Option (Str × Str) :=
        match sumPrev with
        | some p =>
          if row.amount < p then some (commaFormat p, intStr nPrevDays ++ strL " days")
          else none
        | none => none
      let body1 :=
        match clauseVars with
        | some (ra, ts) => body0 ++ cumulClause ra ts suppopp lastname
        | none => body0
      if charLimit < body1.length then
        match sumPrev with
        | none =>
          some (shortSentence pac amountStr suppopp firstname lastname row.party
            districtString)
        | some _ =>
          match clauseVars with
          | none => none
          | some (ra, ts) =>
            some (shortSentence pac amountStr suppopp firstname lastname row.party
              districtString ++ cumulClause ra ts suppopp lastname)
      else some body1

/-- Model of `get_tweet_body` seen from the caller: whatever body survives
the branches above passes through the final hard truncation of lines
239-240 before being returned. -/
def get_tweet_body (row : AggRow) (sumPrev : Option Int) (nPrevDays : Int)
    (charLimit : Nat) : Option Str :=
  (renderBody row sumPrev nPrevDays charLimit).map (truncAt charLimit)

/-- The five-column group key of `grouped_records_df` (line 318). -/
structure Key5 where
  pacshort : Str
  suppopp : Str
  candname : Str
  district : Str
  party : Str
deriving DecidableEq

/-- Group key of a store record, or `none` when a key column is missing
(pandas `groupby` drops such rows). -/
def key5OfRecord (r : Record) : Option Key5 :=
  match r.pacshort, r.suppopp, r.candname, r.district, r.party with
  | some a, some b, some c, some d, some e => some ⟨a, b, c, d, e⟩
  | _, _, _, _, _ => none

/-- Group key of a fresh record for `grouped_latest_df` (line 321), which
additionally includes the purpose note; `none` when a key column is missing. -/
def key6OfRecord (r : Record) : Option AggRow :=
  match r.pacshort, r.suppopp, r.candname, r.district, r.party, r.note with
  | some a, some b, some c, some d, some e, some f =>
    some { pacshort := a, suppopp := b, candname := c, district := d, party := e,
           note := f, amount := 0 }
  | _, _, _, _, _, _ => none

/-- Distinct keys of a list, in order of first occurrence. -/
def dedupKeys {κ : Type} [DecidableEq κ] (ks : List κ) : List κ :=
  ks.foldl (fun acc k => if k ∈ acc then acc else acc ++ [k]) []

/-- Sum of the amounts of a list of records. -/
def sumAmounts (rs : List Record) : Int :=
  (rs.map Record.amount).foldl (· + ·) 0

/-- Model of the store aggregation `grouped_records_df` (lines 318-320):
sum of amount per distinct five-column key. -/
def groupRecords (rs : List Record) : List (Key5 × Int) :=
  (dedupKeys (rs.filterMap key5OfRecord)).map
    (fun k => (k, sumAmounts (rs.filter (fun r => key5OfRecord r == some k))))

/-- Model of the fresh-record aggregation `grouped_latest_df` (lines
321-322): sum of amount per distinct six-column key. -/
def groupLatest (rs : List Record) : List AggRow :=
  (dedupKeys (rs.filterMap key6OfRecord)).map
    (fun k => { k with
      amount := sumAmounts (rs.filter (fun r => key6OfRecord r == some k)) })

/-- The prior-cumulative lookup of lines 337-341: the first store aggregate
matching the row on contributor, stance and recipient. -/
def lookupSum (grouped : List (Key5 × Int)) (row : AggRow) : Option Int :=
  ((grouped.filter (fun kv =>
    kv.1.pacshort == row.pacshort && kv.1.suppopp == row.suppopp
      && kv.1.candname == row.candname)).head?).map (fun kv => kv.2)

/-- Observable effects of a run on the outside world: a write of the store
object to blob storage (line 314) or a dispatch attempt of one message
(line 349), tagged with whether the delivery eventually succeeded after the
notifier's internal retries. -/
inductive Effect
  | writeStore (rows : List StoredRecord)
  | dispatch (body : Str) (delivered : Bool)
deriving DecidableEq

/-- Run-time options of `main` (lines 272-274) that the claims exercise. -/
structure Options where
  min_report_amt : Int := 0
  n_prev_days : Int := 30
  tweet : Bool := true
  record : Bool := true
  report_sum_contributions : Bool := true

/-- One iteration of the notify loop (lines 327-356): skip rows below the
reporting threshold, look up the prior cumulative amount, render, and
dispatch when tweeting is enabled.  The bare `except` at line 354 catches
any render exception, so a failing row contributes no effect and the loop
continues. -/
def processRow (grouped : List (Key5 × Int)) (opts : Options) (delivered : Bool)
    (row : AggRow) : List Effect :=
  if opts.min_report_amt ≤ row.amount then
    let sumContribution :=
      if opts.report_sum_contributions then lookupSum grouped row else none
    match get_tweet_body row sumContribution opts.n_prev_days 280 with
    | none => []
    | some body => if opts.tweet then [Effect.dispatch body delivered] else []
  else []

/-- The notify loop over the aggregate rows (line 327), indexed like the
source's `range` counter; `sendOk i` is the environment's answer to the
`i`-th row's dispatch attempt (after `send_tweet`'s internal retries). -/
def notifyLoop (grouped : List (Key5 × Int)) (opts : Options) (sendOk : Nat → Bool) :
    Nat → List AggRow → List Effect
  | _, [] => []
  | i, row :: rest =>
    processRow grouped opts (sendOk i) row ++ notifyLoop grouped opts sendOk (i+1) rest

/-- Outcome of the store read in `get_records` (lines 37-54), as the s3
client can produce it: the object was read, the client reported that the
object does not exist (`NoSuchKey`), the client reported some other error
(both are `ClientError`s), or reading failed outside the client-error class
(for example the stored bytes do not parse as a csv table). -/
inductive S3ReadResult
  | found (rows : List StoredRecord)
  | clientErrorNoSuchKey
  | clientErrorOther
  | otherFailure

/-- Model of `get_records` (lines 37-54): the `except` clause catches every
`ClientError` — absence of the object and any other client-reported error
alike — and initializes an empty store; any failure outside that class
propagates. -/
def get_records : S3ReadResult → Except Unit (List StoredRecord)
  | S3ReadResult.found rows => Except.ok rows
  | S3ReadResult.clientErrorNoSuchKey => Except.ok []
  | S3ReadResult.clientErrorOther => Except.ok []
  | S3ReadResult.otherFailure => Except.error ()

/-- The environment of one run: the store read outcome, the feed payload
(`none` when the fetch yielded no usable data), the current time as a day
ordinal and as a timestamp string, and the per-row dispatch outcomes. -/
structure Env where
  readResult : S3ReadResult
  fetch : Option (List RawEntry)
  now : Int
  nowStr : Str
  sendOk : Nat → Bool

/-- The store contents written at line 314: the trimmed store, with the new
records appended when the `record` option is on (lines 310-311). -/
def mergedStore (opts : Options) (trimmed latest : List StoredRecord) : List StoredRecord :=
  if opts.record then trimmed ++ latest else trimmed

/-- Model of `main` (lines 272-364): read the store (a non-client read error
propagates), trim it to the retention window, pull and deduplicate the feed
(returning exit signal 1 when no usable data came back), persist the merged
store, aggregate, and run the notify loop.  The result is the exit signal
together with the trace of externally observable effects. -/
def mainRun (env : Env) (opts : Options) : Except Unit (Nat × List Effect) :=
  match get_records env.readResult with
  | Except.error e => Except.error e
  | Except.ok records0 =>
    let cutoff : Int := env.now - opts.n_prev_days
    let records1 := trimRecords records0 cutoff
    match get_latest_data env.fetch records1 env.nowStr with
    | Except.error e => Except.error e
    | Except.ok none => Except.ok (1, [])
    | Except.ok (some latest) =>
      let records2 := mergedStore opts records1 latest
      let grouped := groupRecords (records2.map StoredRecord.rcd)
      let rows := groupLatest (latest.map StoredRecord.rcd)
      Except.ok (0, Effect.writeStore records2 :: notifyLoop grouped opts env.sendOk 0 rows)

/-- Durable blob-storage state: the store object under the records key, and
the rest of the bucket, untouched by this pipeline. -/
structure S3State (γ : Type) where
  storeObj : Option (List StoredRecord)
  otherObjects : γ

/-- Interpretation of one effect on durable storage: a store write replaces
the store object; a dispatch does not touch storage. -/
def applyEffect {γ : Type} (st : S3State γ) : Effect → S3State γ
  | Effect.writeStore rows => { st with storeObj := some rows }
  | Effect.dispatch _ _ => st

/-- Interpretation of a whole effect trace on durable storage. -/
def runEffects {γ : Type} (st : S3State γ) (effs : List Effect) : S3State γ :=
  effs.foldl applyEffect st

/-- The store objects written along a trace. -/
def writesOf (effs : List Effect) : List (List StoredRecord) :=
  effs.filterMap (fun e =>
    match e with
    | Effect.writeStore rows => some rows
    | Effect.dispatch _ _ => none)

/-- The bodies of the dispatch attempts along a trace, in order. -/
def attemptsOf (effs : List Effect) : List Str :=
  effs.filterMap (fun e =>
    match e with
    | Effect.writeStore _ => none
    | Effect.dispatch body _ => some body)

/-- The hard truncation never yields more than the character limit. -/
theorem truncAt_length (charLimit : Nat) (s : Str) : (truncAt charLimit s).length ≤ charLimit := by
  unfold truncAt
  split
  next h => rw [List.length_take]; omega
  next h => omega

/-- A space-free prefix of a `replaceF` output whose replacement starts with
a space is already a prefix of the input. -/
theorem prefix_through_replaceF (pat rt : Str) :
    ∀ (fuel : Nat) (s u : Str), ' ' ∉ u → s.length ≤ fuel →
      u <+: replaceF pat (' ' :: rt) fuel s → u <+: s := by
  intro fuel
  induction fuel with
  | zero =>
    intro s u _ hs hp
    have hnil : s = [] := List.length_eq_zero.mp (Nat.le_zero.mp hs)
    subst hnil
    simpa [replaceF] using hp
  | succ f ih =>
    intro s u hu hs hp
    match s with
    | [] =>
      simpa [replaceF] using hp
    | c :: rest =>
      rw [replaceF] at hp
      by_cases hm : pat <+: (c :: rest)
      · rw [if_pos hm] at hp
        match u with
        | [] => exact List.nil_prefix
        | u0 :: us =>
          have h0 : u0 = ' ' := (List.cons_prefix_cons.mp hp).1
          exact absurd (h0 ▸ List.mem_cons_self u0 us) hu
      · rw [if_neg hm] at hp
        match u with
        | [] => exact List.nil_prefix
        | u0 :: us =>
          obtain ⟨h0, hus⟩ := List.cons_prefix_cons.mp hp
          have hus' : us <+: rest := by
            refine ih rest us (fun hm' => hu (List.mem_cons_of_mem u0 hm')) ?_ hus
            simp [List.length_cons] at hs
            omega
          exact List.cons_prefix_cons.mpr ⟨h0, hus'⟩

/-- An infix occurrence starting with `'.'` cannot start inside a dot-free
block, so it lies wholly in the remainder. -/
theorem infix_skip_clean (q' : Str) :
    ∀ (a b : Str), '.' ∉ a → ('.' :: q') <:+: a ++ b → ('.' :: q') <:+: b := by
  intro a
  induction a with
  | nil => intro b _ h; simpa using h
  | cons c a' ih =>
    intro b ha h
    rw [List.cons_append] at h
    rcases List.infix_cons_iff.mp h with hpre | hinf
    · have hc : '.' = c := (List.cons_prefix_cons.mp hpre).1
      exact absurd (hc ▸ List.mem_cons_self c a') ha
    · exact ih b (fun hm => ha (List.mem_cons_of_mem c hm)) hinf

/-- A replaced pattern starting with `'.'`, whose tail is space-free and
whose replacement is dot-free and starts with a space, never occurs in the
output of `replaceF`. -/
theorem replaceF_no_self (pat repl pt rt : Str) (hp : pat = '.' :: pt)
    (hr : repl = ' ' :: rt) (hpt : ' ' ∉ pt) (hrdot : '.' ∉ repl) :
    ∀ fuel s, s.length ≤ fuel → ¬ pat <:+: replaceF pat repl fuel s := by
  subst hp
  subst hr
  intro fuel
  induction fuel with
  | zero =>
    intro s hs hinf
    have hnil : s = [] := List.length_eq_zero.mp (Nat.le_zero.mp hs)
    subst hnil
    rw [replaceF] at hinf
    simp [List.infix_nil] at hinf
  | succ f ih =>
    intro s hs hinf
    match s with
    | [] =>
      rw [replaceF] at hinf
      simp [List.infix_nil] at hinf
    | c :: rest =>
      rw [replaceF] at hinf
      by_cases hm : ('.' :: pt) <+: (c :: rest)
      · rw [if_pos hm] at hinf
        have h2 := infix_skip_clean pt (' ' :: rt)
          (replaceF ('.' :: pt) (' ' :: rt) f ((c :: rest).drop ('.' :: pt).length))
          hrdot hinf
        refine ih ((c :: rest).drop ('.' :: pt).length) ?_ h2
        simp only [List.length_drop, List.length_cons] at *
        omega
      · rw [if_neg hm] at hinf
        rcases List.infix_cons_iff.mp hinf with hpre | hinf'
        · obtain ⟨hc, hpre'⟩ := List.cons_prefix_cons.mp hpre
          have hp2 : pt <+: rest := by
            refine prefix_through_replaceF ('.' :: pt) rt f rest pt hpt ?_ hpre'
            simp only [List.length_cons] at hs
            omega
          exact hm (List.cons_prefix_cons.mpr ⟨hc, hp2⟩)
        · refine ih rest ?_ hinf'
          simp only [List.length_cons] at hs
          omega

/-- Replacing any non-empty pattern with a dot-free replacement that starts
with a space cannot create a new occurrence of a dot-initial, space-free
pattern that was absent from the input. -/
theorem replaceF_no_create (pat repl rt qt : Str) (hq : ' ' ∉ qt)
    (hr : repl = ' ' :: rt) (hrdot : '.' ∉ repl) (hpat : pat ≠ []) :
    ∀ fuel s, s.length ≤ fuel → ¬ ('.' :: qt) <:+: s →
      ¬ ('.' :: qt) <:+: replaceF pat repl fuel s := by
  subst hr
  intro fuel
  induction fuel with
  | zero =>
    intro s _ hns hinf
    rw [replaceF] at hinf
    exact hns hinf
  | succ f ih =>
    intro s hs hns hinf
    match s with
    | [] =>
      rw [replaceF] at hinf
      simp [List.infix_nil] at hinf
    | c :: rest =>
      rw [replaceF] at hinf
      by_cases hm : pat <+: (c :: rest)
      · rw [if_pos hm] at hinf
        have h2 := infix_skip_clean qt (' ' :: rt)
          (replaceF pat (' ' :: rt) f ((c :: rest).drop pat.length))
          hrdot hinf
        have hdropsuf : ((c :: rest).drop pat.length) <:+ (c :: rest) :=
          List.drop_suffix pat.length (c :: rest)
        refine ih ((c :: rest).drop pat.length) ?_ ?_ h2
        · have hlen : 1 ≤ pat.length := by
            cases pat with
            | nil => exact absurd rfl hpat
            | cons x xs => simp
          simp only [List.length_drop, List.length_cons] at *
          omega
        · intro hq2
          exact hns (hq2.trans hdropsuf.isInfix)
      · rw [if_neg hm] at hinf
        rcases List.infix_cons_iff.mp hinf with hpre | hinf'
        · obtain ⟨hc, hpre'⟩ := List.cons_prefix_cons.mp hpre
          have hp2 : qt <+: rest := by
            refine prefix_through_replaceF pat rt f rest qt hq ?_ hpre'
            simp only [List.length_cons] at hs
            omega
          refine hns ?_
          exact (List.cons_prefix_cons.mpr ⟨hc, hp2⟩ :
            ('.' :: qt) <+: (c :: rest)).isInfix
        · refine ih rest ?_ ?_ hinf'
          · simp only [List.length_cons] at hs
            omega
          · intro hq2
            exact hns (hq2.trans (List.suffix_cons c rest).isInfix)

/-- After the guarded `.com` replacement of lines 201-202 the contributor
name contains no literal `.com`. -/
theorem escapeOne_self_no_com (s : Str) :
    ¬ (strL ".com") <:+: escapeOne (strL ".com") (strL " dot com") s := by
  unfold escapeOne
  split
  next h =>
    exact replaceF_no_self (strL ".com") (strL " dot com") (strL "com") (strL "dot com")
      (by decide) (by decide) (by decide) (by decide) s.length s (Nat.le_refl _)
  next h => exact h

/-- The later guarded replacements (`.org`, `.gov`, `.net`, `.edu`) cannot
re-introduce a literal `.com`. -/
theorem escapeOne_no_create_com (pat repl rt : Str) (hr : repl = ' ' :: rt)
    (hrdot : '.' ∉ repl) (hpat : pat ≠ []) (s : Str)
    (hns : ¬ (strL ".com") <:+: s) : ¬ (strL ".com") <:+: escapeOne pat repl s := by
  have hq : strL ".com" = '.' :: strL "com" := by decide
  rw [hq] at hns ⊢
  unfold escapeOne
  split
  next h =>
    exact replaceF_no_create pat repl rt (strL "com") (by decide) hr hrdot hpat
      s.length s (Nat.le_refl _) hns
  next h => exact hns

/-- The escaped contributor name never contains a literal `.com`. -/
theorem no_com_escapePac (pac : Str) : ¬ (strL ".com") <:+: escapePac pac := by
  unfold escapePac
  refine escapeOne_no_create_com (strL ".edu") (strL " dot edu") (strL "dot edu")
    (by decide) (by decide) (by decide) _ ?_
  refine escapeOne_no_create_com (strL ".net") (strL " dot net") (strL "dot net")
    (by decide) (by decide) (by decide) _ ?_
  refine escapeOne_no_create_com (strL ".gov") (strL " dot gov") (strL "dot gov")
    (by decide) (by decide) (by decide) _ ?_
  refine escapeOne_no_create_com (strL ".org") (strL " dot org") (strL "dot org")
    (by decide) (by decide) (by decide) _ ?_
  exact escapeOne_self_no_com pac

/-- Default run options of `main` (lines 272-274). -/
def opts0 : Options := {}

/-- A well-formed aggregate row used as a concrete test vector. -/
def sampleRow : AggRow :=
  { pacshort := strL "Test PAC"
    suppopp := strL "Supports"
    candname := strL "Doe, Jane"
    district := strL "TX05"
    party := strL "R"
    note := strL "ads"
    amount := 1200 }

/-- Aggregate row whose contributor name carries a domain suffix. -/
def c9Row : AggRow :=
  { sampleRow with
    pacshort := strL "Acme.com PAC"
    district := strL "CA05"
    party := strL "D"
    amount := 5000 }

/-- Aggregate row whose purpose note makes the primary sentence exceed the
280-character limit. -/
def c4Row : AggRow := { sampleRow with note := List.replicate 300 'x' }

/-- Aggregate row with a two-character district code. -/
def c10Row : AggRow := { sampleRow with district := strL "CA" }

/-- A well-formed raw feed entry used as a concrete test vector. -/
def sampleEntry : RawEntry :=
  { cmteid := strL "C1"
    pacshort := strL "Test PAC"
    suppopp := strL "Supports"
    candname := strL "Doe, Jane"
    district := strL "TX05"
    amount := strL "5000"
    note := strL "ads"
    party := strL "R"
    payee := strL "pp"
    date := strL "100"
    origin := strL "og"
    source := strL "sc" }

/-- The feed entry above with an unconvertible amount string. -/
def badAmountEntry : RawEntry := { sampleEntry with amount := strL "abc" }

/-- A concrete run environment: empty prior store, one fresh feed entry,
every dispatch failing after its retries. -/
def sampleEnv : Env :=
  { readResult := S3ReadResult.found []
    fetch := some [sampleEntry]
    now := 0
    nowStr := strL "ts"
    sendOk := fun _ => false }

/-- Environment whose store read fails with a client error other than
absence of the object. -/
def envClientError : Env :=
  { sampleEnv with readResult := S3ReadResult.clientErrorOther, fetch := some [] }

/-- Environment whose feed batch contains the unconvertible amount. -/
def envBadAmount : Env := { sampleEnv with fetch := some [badAmountEntry] }

/-- Environment whose feed fetch yields no usable data. -/
def envNoFetch : Env := { sampleEnv with fetch := none }

/-- Environment whose store read fails outside the client-error class. -/
def envReadFailure : Env := { sampleEnv with readResult := S3ReadResult.otherFailure }

/-- The normalized record produced from `sampleEntry`. -/
def sampleRecord : Record :=
  { cmteid := some (strL "C1")
    pacshort := some (strL "Test PAC")
    suppopp := some (strL "Supports")
    candname := some (strL "Doe, Jane")
    district := some (strL "TX05")
    amount := 5000
    note := some (strL "ads")
    party := some (strL "R")
    payee := some (strL "pp")
    date := some 100
    origin := some (strL "og")
    source := some (strL "sc") }

/-- The message rendered for `sampleEntry`'s aggregate row. -/
def sampleBody : Str := strL "Test PAC spends $5,000 on ads support Jane Doe (R-TX05)."

/-- The effect trace of a run over `sampleEnv` with default options. -/
def sampleEffects : List Effect :=
  [Effect.writeStore [⟨sampleRecord, some (strL "ts")⟩], Effect.dispatch sampleBody false]

/-- C4: when the composed text exceeds the limit and a prior cumulative
amount is supplied but does not strictly exceed the current amount, the
rebuild path of lines 230-235 reads `record_amount` and `time_string`,
which were never assigned (their assignment at lines 224-225 requires the
cumulative amount to exceed the current amount): the renderer raises a
`NameError` instead of returning the shortened text, so the rendered-text
condition claimed for the shortened rebuild cannot hold there.  With the
same row and a cumulative amount that does exceed, the rebuild succeeds. -/
theorem rebuild_cumulative_name_error :
    get_tweet_body c4Row (some 1200) 30 280 = none ∧
    (∃ t, get_tweet_body c4Row (some 5000) 30 280 = some t) := by
  refine ⟨by decide, ⟨strL "Test PAC spends $1,200 support Jane Doe (R-TX05).\n\nThey have now spent $5,000 support Doe in the past 30 days.", by decide⟩⟩

/-- C9: the escaped contributor name never contains a literal `.com`
(lines 201-210 replace every occurrence and the later replacements cannot
re-create one), and the name `Acme.com PAC` is escaped exactly to
`Acme dot com PAC`, which the rendered message contains. -/
theorem domain_suffix_escaping_exact :
    (∀ pac : Str, decide ((strL ".com") <:+: escapePac pac) = false) ∧
    escapePac (strL "Acme.com PAC") = strL "Acme dot com PAC" ∧
    (∃ t, get_tweet_body c9Row none 30 280 = some t ∧ (strL "Acme dot com PAC") <:+: t) := by
  refine ⟨fun pac => decide_eq_false (no_com_escapePac pac), by decide, ?_⟩
  exact ⟨strL "Acme dot com PAC spends $5,000 on ads support Jane Doe (D-CA05).",
    rfl, by decide⟩

/-- C5: whenever the renderer returns a text — for any aggregate row whose
string fields are at most 500 characters, and any prior-cumulative argument
— that text is at most the configured character limit long, because every
return site passes through the final truncation of lines 239-240. -/
theorem render_length_bounded (row : AggRow) (sumPrev : Option Int)
    (nPrevDays : Int) (charLimit : Nat)
    (_h1 : row.pacshort.length ≤ 500) (_h2 : row.suppopp.length ≤ 500)
    (_h3 : row.candname.length ≤ 500) (_h4 : row.district.length ≤ 500)
    (_h5 : row.party.length ≤ 500) (_h6 : row.note.length ≤ 500)
    (t : Str) (ht : get_tweet_body row sumPrev nPrevDays charLimit = some t) :
    t.length ≤ charLimit := by
  unfold get_tweet_body at ht
  cases hb : renderBody row sumPrev nPrevDays charLimit with
  | none => rw [hb] at ht; exact Option.noConfusion ht
  | some b =>
    rw [hb] at ht
    exact (Option.some.inj ht) ▸ truncAt_length _ _

/-- C10: an aggregate row whose district code is shorter than three
characters makes the renderer raise (it indexes `district[2]`, line 217),
so the catch-all of lines 343-356 produces no effect for that row and the
loop continues with the remaining rows: the row is never dispatched and
never aborts the batch. -/
theorem short_district_row_skipped (row : AggRow) (hd : row.district.length < 3) :
    (∀ (sumPrev : Option Int) (nPrevDays : Int) (charLimit : Nat),
      get_tweet_body row sumPrev nPrevDays charLimit = none) ∧
    (∀ (grouped : List (Key5 × Int)) (opts : Options) (delivered : Bool),
      processRow grouped opts delivered row = []) ∧
    (∀ (grouped : List (Key5 × Int)) (opts : Options) (sendOk : Nat → Bool)
      (i : Nat) (rest : List AggRow),
      notifyLoop grouped opts sendOk i (row :: rest) =
        notifyLoop grouped opts sendOk (i+1) rest) := by
  have hget : row.district[2]? = none := List.getElem?_eq_none (by omega)
  have hbody : ∀ (sumPrev : Option Int) (nPrevDays : Int) (charLimit : Nat),
      get_tweet_body row sumPrev nPrevDays charLimit = none := by
    intro sumPrev nPrevDays charLimit
    have hrb : renderBody row sumPrev nPrevDays charLimit = none := by
      unfold renderBody
      cases hfn : (splitOnSep (strL ", ") row.candname).get? 1 with
      | none => simp
      | some firstname => simp [hget]
    unfold get_tweet_body
    rw [hrb]
    rfl
  have hrow : ∀ (grouped : List (Key5 × Int)) (opts : Options) (delivered : Bool),
      processRow grouped opts delivered row = [] := by
    intro grouped opts delivered
    unfold processRow
    split
    next hamt => simp [hbody]
    next hamt => rfl
  refine ⟨hbody, hrow, ?_⟩
  intro grouped opts sendOk i rest
  rw [notifyLoop, hrow]
  rfl

/-- C3: the deduplicator is an exact left set-difference on the
feed-sourced fields.  A fresh record survives iff no store row equals it on
every feed-sourced field (the ingestion timestamp plays no part); when the
fresh set is covered by the store the difference is empty; and an empty
difference makes `get_latest_data` return an empty sequence, not an error. -/
theorem dedup_left_difference :
    (∀ (A : List Record) (B : List StoredRecord),
      (∀ r ∈ A, ∃ s ∈ B, s.rcd = r) → dedupNew A B = []) ∧
    (∀ (A : List Record) (B : List StoredRecord) (r : Record),
      r ∈ dedupNew A B ↔ r ∈ A ∧ ¬ ∃ s ∈ B, s.rcd = r) ∧
    (∀ (entries : List RawEntry) (records : List StoredRecord) (ts : Str)
      (latest : List Record), normalizeEntries entries = Except.ok latest →
      dedupNew latest records = [] →
      get_latest_data (some entries) records ts = Except.ok (some [])) := by
  have hmem : ∀ (A : List Record) (B : List StoredRecord) (r : Record),
      r ∈ dedupNew A B ↔ r ∈ A ∧ ¬ ∃ s ∈ B, s.rcd = r := by
    intro A B r
    simp [dedupNew, List.mem_filter, List.any_eq_true]
  refine ⟨?_, hmem, ?_⟩
  · intro A B hsub
    refine List.eq_nil_iff_forall_not_mem.mpr ?_
    intro r hr
    obtain ⟨hrA, hno⟩ := (hmem A B r).mp hr
    exact hno (hsub r hrA)
  · intro entries records ts latest hnorm hdedup
    simp [get_latest_data, hnorm, hdedup]

/-- C6: retention trimming is the pure filter keeping the rows whose
disclosure date is not strictly before the cutoff, and running it twice
with the same cutoff changes nothing more than running it once. -/
theorem retention_trim_exact :
    (∀ (records : List StoredRecord) (cutoff : Int),
      trimRecords records cutoff =
        records.filter (fun r => dateGE r.rcd.date cutoff)) ∧
    (∀ (records : List StoredRecord) (cutoff : Int) (r : StoredRecord) (d : Int),
      r.rcd.date = some d →
      (r ∈ trimRecords records cutoff ↔ r ∈ records ∧ ¬ (d < cutoff))) ∧
    (∀ (records : List StoredRecord) (cutoff : Int),
      trimRecords (trimRecords records cutoff) cutoff = trimRecords records cutoff) := by
  have hfil : ∀ (records : List StoredRecord) (cutoff : Int),
      trimRecords records cutoff =
        records.filter (fun r => dateGE r.rcd.date cutoff) := by
    intro records cutoff
    unfold trimRecords
    split
    next h => rfl
    next h =>
      cases records with
      | nil => rfl
      | cons a as => simp at h
  refine ⟨hfil, ?_, ?_⟩
  · intro records cutoff r d hd
    rw [hfil, List.mem_filter]
    simp [dateGE, hd, Int.not_lt]
  · intro records cutoff
    rw [hfil, hfil, List.filter_filter]
    simp

/-- One entry failing conversion makes the whole batch conversion fail,
as the column-wise conversion raises. -/
theorem mapME_error (l : List RawEntry) (e : RawEntry) (he : e ∈ l)
    (hf : convertRow e = Except.error ()) : mapME convertRow l = Except.error () := by
  induction l with
  | nil => cases he
  | cons a as ih =>
    rw [mapME]
    rcases List.mem_cons.mp he with rfl | hmem
    · rw [hf]
    · cases hca : convertRow a with
      | error err => cases err; rfl
      | ok b => rw [ih hmem]

/-- With usable feed data, `get_latest_data` never returns the `None`
result reserved for a failed fetch. -/
theorem get_latest_data_some_ne_none (entries : List RawEntry)
    (records : List StoredRecord) (ts : Str) :
    get_latest_data (some entries) records ts ≠ Except.ok none := by
  cases hn : normalizeEntries entries with
  | error e => simp [get_latest_data, hn]
  | ok latest => simp [get_latest_data, hn]

/-- `writesOf` distributes over trace concatenation. -/
theorem writesOf_append (a b : List Effect) :
    writesOf (a ++ b) = writesOf a ++ writesOf b := by
  simp [writesOf, List.filterMap_append]

/-- `attemptsOf` distributes over trace concatenation. -/
theorem attemptsOf_append (a b : List Effect) :
    attemptsOf (a ++ b) = attemptsOf a ++ attemptsOf b := by
  simp [attemptsOf, List.filterMap_append]

/-- A store write at the head of a trace heads the write list. -/
theorem writesOf_cons_write (rows : List StoredRecord) (effs : List Effect) :
    writesOf (Effect.writeStore rows :: effs) = rows :: writesOf effs := rfl

/-- A loop iteration never writes the store. -/
theorem writesOf_processRow (grouped : List (Key5 × Int)) (opts : Options)
    (delivered : Bool) (row : AggRow) :
    writesOf (processRow grouped opts delivered row) = [] := by
  unfold processRow
  split
  next h =>
    dsimp only
    split
    · rfl
    · split
      · rfl
      · rfl
  next h => rfl

/-- The notify loop never writes the store. -/
theorem writesOf_notifyLoop (grouped : List (Key5 × Int)) (opts : Options)
    (sendOk : Nat → Bool) :
    ∀ (rows : List AggRow) (i : Nat),
      writesOf (notifyLoop grouped opts sendOk i rows) = [] := by
  intro rows
  induction rows with
  | nil => intro i; rfl
  | cons row rest ih =>
    intro i
    rw [notifyLoop, writesOf_append, writesOf_processRow, ih]
    rfl

/-- A trace without store writes leaves durable storage unchanged. -/
theorem runEffects_no_writes {γ : Type} :
    ∀ (effs : List Effect), writesOf effs = [] →
      ∀ (st : S3State γ), runEffects st effs = st := by
  intro effs
  induction effs with
  | nil => intro _ st; rfl
  | cons e rest ih =>
    intro hw st
    cases e with
    | writeStore rows => simp [writesOf] at hw
    | dispatch b d =>
      have hw' : writesOf rest = [] := by simpa [writesOf] using hw
      have hstep : runEffects st (Effect.dispatch b d :: rest) = runEffects st rest := rfl
      rw [hstep]
      exact ih hw' st

/-- The dispatch-attempt bodies of one loop iteration do not depend on the
delivery outcome. -/
theorem attemptsOf_processRow (grouped : List (Key5 × Int)) (opts : Options)
    (row : AggRow) (d d' : Bool) :
    attemptsOf (processRow grouped opts d row) =
      attemptsOf (processRow grouped opts d' row) := by
  unfold processRow
  split
  next h =>
    dsimp only
    split
    · rfl
    · split
      · rfl
      · rfl
  next h => rfl

/-- The dispatch-attempt bodies of the notify loop do not depend on the
delivery outcomes (or on the loop counter's origin). -/
theorem attemptsOf_notifyLoop (grouped : List (Key5 × Int)) (opts : Options)
    (f g : Nat → Bool) :
    ∀ (rows : List AggRow) (i j : Nat),
      attemptsOf (notifyLoop grouped opts f i rows) =
        attemptsOf (notifyLoop grouped opts g j rows) := by
  intro rows
  induction rows with
  | nil => intro i j; rfl
  | cons row rest ih =>
    intro i j
    rw [notifyLoop, notifyLoop, attemptsOf_append, attemptsOf_append,
      attemptsOf_processRow grouped opts row (f i) (g j), ih (i+1) (j+1)]

/-- C7: the run exits with signal 1 (non-zero) exactly in the unusable-feed
case; any run completing after obtaining usable feed data — including one
with nothing new — exits with signal 0; and the delivery outcomes of
dispatch, failed or not, change neither the exit signal nor which messages
are attempted (so later rows still attempt dispatch after earlier rows
fail all retries). -/
theorem exit_signal_semantics :
    (∀ (env : Env) (opts : Options), (∃ rs, get_records env.readResult = Except.ok rs) →
      env.fetch = none → mainRun env opts = Except.ok (1, [])) ∧
    (∀ (env : Env) (opts : Options) (entries : List RawEntry) (code : Nat)
      (effs : List Effect), env.fetch = some entries →
      mainRun env opts = Except.ok (code, effs) → code = 0) ∧
    (∀ (env : Env) (opts : Options) (f g : Nat → Bool),
      (mainRun { env with sendOk := f } opts).map (fun r => (r.1, attemptsOf r.2)) =
        (mainRun { env with sendOk := g } opts).map (fun r => (r.1, attemptsOf r.2))) := by
  refine ⟨?_, ?_, ?_⟩
  · rintro env opts ⟨rs, hrs⟩ hf
    simp [mainRun, hrs, hf, get_latest_data]
  · intro env opts entries code effs hf hm
    cases hr : get_records env.readResult with
    | error e => simp [mainRun, hr] at hm
    | ok records0 =>
      cases hl : get_latest_data env.fetch
          (trimRecords records0 (env.now - opts.n_prev_days)) env.nowStr with
      | error e => simp [mainRun, hr, hl] at hm
      | ok o =>
        cases o with
        | none =>
          rw [hf] at hl
          exact absurd hl (get_latest_data_some_ne_none entries _ env.nowStr)
        | some latest =>
          simp [mainRun, hr, hl] at hm
          exact hm.1.symm
  · intro env opts f g
    cases hr : get_records env.readResult with
    | error e => simp [mainRun, hr]
    | ok records0 =>
      cases hl : get_latest_data env.fetch
          (trimRecords records0 (env.now - opts.n_prev_days)) env.nowStr with
      | error e => simp [mainRun, hr, hl]
      | ok o =>
        cases o with
        | none => simp [mainRun, hr, hl]
        | some latest =>
          simp [mainRun, hr, hl, Except.map, attemptsOf]
          exact attemptsOf_notifyLoop _ opts f g _ 0 0

/-- C8: a run that obtained usable feed data writes the store object
exactly once, as the first effect of the trace — before any dispatch — and
the written contents are the retention-trimmed prior store with the new
records appended exactly when the `record` option is on.  Interpreting the
trace on durable storage, the store object always ends up rewritten while
every other object is untouched. -/
theorem persist_once_before_notify :
    ∀ (env : Env) (opts : Options) (entries : List RawEntry) (code : Nat)
      (effs : List Effect), env.fetch = some entries →
      mainRun env opts = Except.ok (code, effs) →
      ∃ (records0 latest : List StoredRecord) (rest : List Effect),
        get_records env.readResult = Except.ok records0 ∧
        get_latest_data env.fetch (trimRecords records0 (env.now - opts.n_prev_days))
          env.nowStr = Except.ok (some latest) ∧
        effs = Effect.writeStore (mergedStore opts
          (trimRecords records0 (env.now - opts.n_prev_days)) latest) :: rest ∧
        writesOf rest = [] ∧
        writesOf effs = [mergedStore opts
          (trimRecords records0 (env.now - opts.n_prev_days)) latest] ∧
        (∀ (γ : Type) (st : S3State γ),
          (runEffects st effs).storeObj = some (mergedStore opts
            (trimRecords records0 (env.now - opts.n_prev_days)) latest) ∧
          (runEffects st effs).otherObjects = st.otherObjects) := by
  intro env opts entries code effs hf hm
  cases hr : get_records env.readResult with
  | error e => simp [mainRun, hr] at hm
  | ok records0 =>
    cases hl : get_latest_data env.fetch
        (trimRecords records0 (env.now - opts.n_prev_days)) env.nowStr with
    | error e => simp [mainRun, hr, hl] at hm
    | ok o =>
      cases o with
      | none =>
        rw [hf] at hl
        exact absurd hl (get_latest_data_some_ne_none entries _ env.nowStr)
      | some latest =>
        simp [mainRun, hr, hl] at hm
        obtain ⟨hcode, heffs⟩ := hm
        refine ⟨records0, latest, _, rfl, hl, heffs.symm, ?_, ?_, ?_⟩
        · exact writesOf_notifyLoop _ opts env.sendOk _ 0
        · rw [← heffs, writesOf_cons_write, writesOf_notifyLoop]
        · intro γ st
          rw [← heffs]
          have hstep : runEffects st (Effect.writeStore (mergedStore opts
              (trimRecords records0 (env.now - opts.n_prev_days)) latest)
                :: notifyLoop (groupRecords ((mergedStore opts
                  (trimRecords records0 (env.now - opts.n_prev_days)) latest).map
                    StoredRecord.rcd)) opts env.sendOk 0
                  (groupLatest (latest.map StoredRecord.rcd))) =
              runEffects { st with storeObj := some (mergedStore opts
                (trimRecords records0 (env.now - opts.n_prev_days)) latest) }
                (notifyLoop (groupRecords ((mergedStore opts
                  (trimRecords records0 (env.now - opts.n_prev_days)) latest).map
                    StoredRecord.rcd)) opts env.sendOk 0
                  (groupLatest (latest.map StoredRecord.rcd))) := rfl
          rw [hstep, runEffects_no_writes _ (writesOf_notifyLoop _ opts env.sendOk _ 0)]
          exact ⟨rfl, rfl⟩

/-- The `sampleRecord` as a stored row. -/
def sampleStored : StoredRecord := ⟨sampleRecord, some (strL "ts")⟩

/-- C1 counterexample: a store read failing with a client error other than
absence (for example an access failure on an existing object) is swallowed
by the `except s3.exceptions.ClientError` clause of lines 44-47: the run
proceeds on an empty store and completes with exit signal 0 instead of
aborting. -/
theorem store_read_client_error_not_fatal_cex :
    get_records S3ReadResult.clientErrorOther = Except.ok [] ∧
    mainRun envClientError opts0 = Except.ok (0, [Effect.writeStore []]) :=
  ⟨rfl, rfl⟩

/-- C1 as the code has it: absence of the store object yields an empty
initial store, but so does every other client-reported read error; only a
failure outside the client-error class (for example stored bytes that do
not parse) propagates and aborts the run. -/
theorem store_read_error_handling :
    get_records S3ReadResult.clientErrorNoSuchKey = Except.ok [] ∧
    (∀ rows, get_records (S3ReadResult.found rows) = Except.ok rows) ∧
    get_records S3ReadResult.clientErrorOther = Except.ok [] ∧
    get_records S3ReadResult.otherFailure = Except.error () ∧
    (∀ (env : Env) (opts : Options), env.readResult = S3ReadResult.otherFailure →
      mainRun env opts = Except.error ()) := by
  refine ⟨rfl, fun rows => rfl, rfl, rfl, ?_⟩
  intro env opts h
  simp [mainRun, h, get_records]

theorem store_read_error_handling_w :
    mainRun envReadFailure opts0 = Except.error () :=
  store_read_error_handling.2.2.2.2 envReadFailure opts0 rfl

/-- C2 counterexample: a feed entry whose amount is present but not
numeric makes the whole-column `pd.to_numeric` raise (line 159, no
`errors='coerce'`), aborting the run: the entry is not dropped and the
batch does not continue. -/
theorem unparseable_amount_fatal_cex :
    normalizeEntries [badAmountEntry] = Except.error () ∧
    mainRun envBadAmount opts0 = Except.error () :=
  ⟨rfl, rfl⟩

/-- C2 as the code has it: an entry passing the key-column `dropna` whose
amount fails numeric conversion, or whose non-blank date fails calendar
conversion, makes normalization raise, and the raise propagates out of
`main`: a conversion failure is run-fatal, not a dropped entry. -/
theorem conversion_failure_aborts :
    ∀ (entries : List RawEntry) (e : RawEntry), e ∈ entries → keyPresent e = true →
      (parseNumeric e.amount = none ∨
        (∃ ds, cleanField e.date = some ds ∧ parseDate ds = none)) →
      normalizeEntries entries = Except.error () ∧
      (∀ (env : Env) (opts : Options), env.fetch = some entries →
        (∃ rs, get_records env.readResult = Except.ok rs) →
        mainRun env opts = Except.error ()) := by
  intro entries e he hkey hbad
  have hconv : convertRow e = Except.error () := by
    rcases hbad with hnum | ⟨ds, hds, hpd⟩
    · simp [convertRow, hnum]
    · cases hn : parseNumeric e.amount with
      | none => simp [convertRow, hn]
      | some a => simp [convertRow, hn, hds, hpd]
  have hfail : normalizeEntries entries = Except.error () := by
    unfold normalizeEntries
    exact mapME_error _ e (List.mem_filter.mpr ⟨he, hkey⟩) hconv
  refine ⟨hfail, ?_⟩
  rintro env opts hf ⟨rs, hrs⟩
  simp [mainRun, hrs, hf, get_latest_data, hfail]

theorem conversion_failure_aborts_w :
    badAmountEntry ∈ [badAmountEntry] ∧ keyPresent badAmountEntry = true ∧
    normalizeEntries [badAmountEntry] = Except.error () ∧
    mainRun envBadAmount opts0 = Except.error () := by
  have h := conversion_failure_aborts [badAmountEntry] badAmountEntry
    (List.mem_singleton.mpr rfl) (by decide) (Or.inl (by decide))
  exact ⟨List.mem_singleton.mpr rfl, by decide, h.1,
    h.2 envBadAmount opts0 rfl ⟨[], rfl⟩⟩

theorem dedup_left_difference_w :
    (∀ r ∈ [sampleRecord], ∃ s ∈ [sampleStored], s.rcd = r) ∧
    dedupNew [sampleRecord] [sampleStored] = [] ∧
    (sampleRecord ∈ dedupNew [sampleRecord] [] ↔
      sampleRecord ∈ [sampleRecord] ∧ ¬ ∃ s ∈ ([] : List StoredRecord), s.rcd = sampleRecord) :=
  ⟨by decide, dedup_left_difference.1 _ _ (by decide), dedup_left_difference.2.1 _ _ _⟩

theorem render_length_bounded_w :
    (strL "Test PAC").length ≤ 500 ∧
    get_tweet_body sampleRow none 30 280 =
      some (strL "Test PAC spends $1,200 on ads support Jane Doe (R-TX05).") ∧
    (strL "Test PAC spends $1,200 on ads support Jane Doe (R-TX05).").length ≤ 280 := by
  refine ⟨by decide, by decide, ?_⟩
  exact render_length_bounded sampleRow none 30 280 (by decide) (by decide) (by decide)
    (by decide) (by decide) (by decide) _ (by decide)

theorem retention_trim_exact_w :
    sampleStored.rcd.date = some 100 ∧
    (sampleStored ∈ trimRecords [sampleStored] 50 ↔
      sampleStored ∈ [sampleStored] ∧ ¬ ((100 : Int) < 50)) ∧
    trimRecords (trimRecords [sampleStored] 50) 50 = trimRecords [sampleStored] 50 :=
  ⟨by decide, retention_trim_exact.2.1 _ 50 _ 100 (by decide), retention_trim_exact.2.2 _ 50⟩

theorem exit_signal_semantics_w :
    mainRun envNoFetch opts0 = Except.ok (1, []) ∧
    (mainRun { sampleEnv with sendOk := fun _ => false } opts0).map
        (fun r => (r.1, attemptsOf r.2)) =
      (mainRun { sampleEnv with sendOk := fun _ => true } opts0).map
        (fun r => (r.1, attemptsOf r.2)) :=
  ⟨exit_signal_semantics.1 envNoFetch opts0 ⟨[], rfl⟩ rfl,
    exit_signal_semantics.2.2 sampleEnv opts0 (fun _ => false) (fun _ => true)⟩

theorem persist_once_before_notify_w :
    ∃ (records0 latest : List StoredRecord) (rest : List Effect),
      get_records sampleEnv.readResult = Except.ok records0 ∧
      get_latest_data sampleEnv.fetch
        (trimRecords records0 (sampleEnv.now - opts0.n_prev_days)) sampleEnv.nowStr
        = Except.ok (some latest) ∧
      sampleEffects = Effect.writeStore (mergedStore opts0
        (trimRecords records0 (sampleEnv.now - opts0.n_prev_days)) latest) :: rest ∧
      writesOf rest = [] ∧
      writesOf sampleEffects = [mergedStore opts0
        (trimRecords records0 (sampleEnv.now - opts0.n_prev_days)) latest] ∧
      (∀ (γ : Type) (st : S3State γ),
        (runEffects st sampleEffects).storeObj = some (mergedStore opts0
          (trimRecords records0 (sampleEnv.now - opts0.n_prev_days)) latest) ∧
        (runEffects st sampleEffects).otherObjects = st.otherObjects) :=
  persist_once_before_notify sampleEnv opts0 [sampleEntry] 0 sampleEffects rfl rfl

theorem short_district_row_skipped_w :
    (strL "CA").length < 3 ∧
    get_tweet_body c10Row none 30 280 = none ∧
    processRow [] opts0 false c10Row = [] ∧
    notifyLoop [] opts0 (fun _ => false) 0 [c10Row] =
      notifyLoop [] opts0 (fun _ => false) 1 [] := by
  have h := short_district_row_skipped c10Row (by decide)
  exact ⟨by decide, h.1 none 30 280, h.2.1 [] opts0 false,
    h.2.2 [] opts0 (fun _ => false) 0 []⟩
